import Mathlib

/-!
Verification of the aeolus diagnostics core against its specification.

The development shallowly embeds `src/aeolus/misc.py`
(`vertical_cross_section_area` and `net_horizontal_flux_to_region`) and
`src/aeolus/plot/mpl.py` (`MidpointNormalize.__call__`).

Modelling conventions:
* grid-coordinate points, cell bounds and cube data values are rationals
  (exact stand-ins for the floating-point arrays), while the planet radius,
  areas and fluxes live in `ℝ` because the area formula multiplies by
  `π/180` and a cosine;
* an iris cube is a labelled array with named dimension coordinates; the
  2-D cubes used by the area function carry the two dimension coordinates,
  the flag "is the second dimension coordinate a longitude (X) axis", and
  the first point of the Y-axis (latitude) coordinate, mirroring exactly
  the attributes the Python code reads;
* fallible Python steps (extraction returning `None`, dictionary lookup,
  list indexing) are modelled with `Option` / `Except` carrying an error
  kind naming the Python exception they correspond to;
* `warnings.warn` is modelled by counting warnings in the result.
-/

/-- One dimension coordinate: ordered points plus optional cell bounds. -/
structure Coord1 where
  points : List ℚ
  bounds : Option (List (ℚ × ℚ))
deriving DecidableEq

/-- A 2-D cube slice as consumed by `vertical_cross_section_area`:
`dim0`/`dim1` are `cube2d.dim_coords[0]` / `cube2d.dim_coords[1]`,
`dim1IsX` is `iris.util.guess_coord_axis(cube2d.dim_coords[1]) == "X"`, and
`yFirst` is `cube2d.coord(axis="Y").points[0]`. -/
structure Cube2 (α : Type) where
  dim0 : Coord1
  dim1 : Coord1
  dim1IsX : Bool
  yFirst : ℚ
  data : List (List α)
deriving DecidableEq

/-- A 3-D cube with height, latitude and longitude dimension coordinates
(in that dimension order); `data` is indexed `[z][lat][lon]`. -/
structure Cube3d where
  z : List ℚ
  lat : List ℚ
  lon : List ℚ
  data : List (List (List ℚ))
deriving DecidableEq

/-- The point at index `i` of a coordinate (0 outside the list). -/
def getP (pts : List ℚ) (i : ℕ) : ℚ := pts.getD i 0

/-- Modelled from the spec: bounds inference for a coordinate lacking
bounds (`dim_coord.guess_bounds()`, provided by the external cube library):
"synthesize bounds as the midpoints between neighboring points (edge cells
extrapolate the adjacent spacing)"; a single-point coordinate degenerates
to a zero-width interval. -/
def guessBounds (pts : List ℚ) : List (ℚ × ℚ) :=
  if pts.length ≤ 1 then pts.map (fun p => (p, p))
  else (List.range pts.length).map (fun i =>
    (getP pts i -
      (if i = 0 then getP pts 1 - getP pts 0 else getP pts i - getP pts (i - 1)) / 2,
     getP pts i +
      (if i = pts.length - 1 then getP pts (pts.length - 1) - getP pts (pts.length - 2)
       else getP pts (i + 1) - getP pts i) / 2))

/-- The bounds used for a coordinate: pre-supplied ones if present,
otherwise the inferred ones. -/
def boundsOrGuess (pts : List ℚ) (b : Option (List (ℚ × ℚ))) : List (ℚ × ℚ) :=
  b.getD (guessBounds pts)

/-- `np.deg2rad`. -/
noncomputable def deg2rad (x : ℚ) : ℝ := (x : ℝ) * (Real.pi / 180)

/-- Embedding of `vertical_cross_section_area(cube2d, r_planet)` from
`src/aeolus/misc.py`: `m_per_deg = (π/180) * r_planet`, scaled by
`cos(deg2rad(coord(axis="Y").points[0]))` when the second dimension
coordinate is an X (longitude) axis; missing bounds are inferred; the cell
data is the outer product of the bound widths of the first coordinate with
those of the second times `m_per_deg`; the output cube's coordinate bounds
are stripped. -/
noncomputable def vertical_cross_section_area (cube2d : Cube2 α) (r_planet : ℝ) : Cube2 ℝ :=
  let m0 : ℝ := Real.pi / 180 * r_planet
  let m_per_deg : ℝ :=
    if cube2d.dim1IsX then m0 * Real.cos (deg2rad cube2d.yFirst) else m0
  let z_bounds := boundsOrGuess cube2d.dim0.points cube2d.dim0.bounds
  let x_bounds := boundsOrGuess cube2d.dim1.points cube2d.dim1.bounds
  { dim0 := { points := cube2d.dim0.points, bounds := none }
    dim1 := { points := cube2d.dim1.points, bounds := none }
    dim1IsX := cube2d.dim1IsX
    yFirst := cube2d.yFirst
    data := z_bounds.map (fun zb => x_bounds.map (fun xb =>
      ((zb.2 : ℝ) - (zb.1 : ℝ)) * (((xb.2 : ℝ) - (xb.1 : ℝ)) * m_per_deg))) }

/-- `np.interp(v, [x0, x1, x2], [y0, y1, y2])`: piecewise-linear
interpolation through three anchor points, clamped at the ends; at an
exact anchor match numpy returns the ordinate of the last anchor whose
abscissa is `≤ v`. -/
def np_interp3 (v x0 x1 x2 y0 y1 y2 : ℚ) : ℚ :=
  if v < x0 then y0
  else if v < x1 then y0 + (v - x0) * (y1 - y0) / (x1 - x0)
  else if v < x2 then y1 + (v - x1) * (y2 - y1) / (x2 - x1)
  else y2

/-- Embedding of `MidpointNormalize.__call__` from `src/aeolus/plot/mpl.py`:
`np.interp(value, [vmin, midpoint, vmax], [0, 0.5, 1])`. -/
def MidpointNormalize (vmin midpoint vmax value : ℚ) : ℚ :=
  np_interp3 value vmin midpoint vmax 0 (1 / 2) 1

/-- The four region-box keys `{longitude,latitude}{0,1}` (spec §3:
"region_box must supply exactly four keys in the pattern `{axis}{0|1}`"). -/
inductive BoxKey
  | longitude0
  | longitude1
  | latitude0
  | latitude1
deriving DecidableEq

/-- The two horizontal coordinate axes. -/
inductive LLAxis
  | longitude
  | latitude
deriving DecidableEq

/-- `ll_coord[:-1]`: the axis a box key fixes. -/
def keyAxis : BoxKey → LLAxis
  | .longitude0 => .longitude
  | .longitude1 => .longitude
  | .latitude0 => .latitude
  | .latitude1 => .latitude

/-- `ll_other = {"longitude": "latitude", "latitude": "longitude"}`. -/
def llOther : LLAxis → LLAxis
  | .longitude => .latitude
  | .latitude => .longitude

/-- The box key `f"{axis}0"`. -/
def key0 : LLAxis → BoxKey
  | .longitude => .longitude0
  | .latitude => .latitude0

/-- The box key `f"{axis}1"`. -/
def key1 : LLAxis → BoxKey
  | .longitude => .longitude1
  | .latitude => .latitude1

/-- The points of the named horizontal coordinate of a cube. -/
def coordPoints (c : Cube3d) : LLAxis → List ℚ
  | .longitude => c.lon
  | .latitude => c.lat

/-- `perpendicular_wind_cmpnts = {"longitude": u, "latitude": v}`. -/
def perpWind : LLAxis → Cube3d → Cube3d → Cube3d
  | .longitude, u, _ => u
  | .latitude, _, v => v

/-- `latlon_box_dict[key]`: dictionary lookup among the box entries. -/
def boxLookup (k : BoxKey) : List (BoxKey × ℚ) → Option ℚ
  | [] => none
  | (k2, q) :: rest => if k2 = k then some q else boxLookup k rest

/-- Error kinds of the Python exceptions the flux computation can raise:
`keyError` for a failed dictionary lookup, `lookupError` for a
nearest-value search on an empty axis, `attrError` for
`vertical_cross_section_area(None)` (AttributeError on a `None`
extraction), `typeError` for `None * cube` arithmetic, and `indexError`
for `total_h_fluxes[i]` on a too-short list at the final reduction. -/
inductive FluxErr
  | keyError
  | lookupError
  | attrError
  | typeError
  | indexError
deriving DecidableEq

/-- `np.abs` on an exact rational. -/
def ratAbs (q : ℚ) : ℚ := if q < 0 then -q else q

/-- Modelled from the spec: `nearest_coord_value` from
`aeolus.coord_utils` (imported by `misc.py` but not under `src/`):
"Snap the requested fixed value to the nearest available grid value on
that axis", failing on an empty axis; ties keep the earlier point. -/
def nearest_coord_value (pts : List ℚ) (val : ℚ) : Option ℚ :=
  match pts with
  | [] => none
  | p :: rest =>
    some (rest.foldl (fun best q => if ratAbs (q - val) < ratAbs (best - val) then q else best) p)

/-- The snapped fixed value for a boundary, read off `scalar_cube`. -/
def snapValue (scalar_cube : Cube3d) (ax : LLAxis) (val : ℚ) : Option ℚ :=
  nearest_coord_value (coordPoints scalar_cube ax) val

/-- The free-axis membership test built for a boundary: the in-range
constraint `other_min <= x <= other_max` when `other_max >= other_min`,
otherwise the wraparound constraint `(other_max >= x) or (other_min <= x)`. -/
def rangeSel (other_min other_max x : ℚ) : Bool :=
  if other_max ≥ other_min then decide (other_min ≤ x ∧ x ≤ other_max)
  else decide (other_max ≥ x ∨ other_min ≤ x)

/-- Keep the entries of `rows` whose coordinate point satisfies `p`. -/
def filterWith (pts : List ℚ) (p : ℚ → Bool) (rows : List α) : List α :=
  ((pts.zip rows).filter (fun pr => p pr.1)).map Prod.snd

/-- The index of the first point equal to `w` (the dimension index kept by
an equality constraint on a strictly monotonic coordinate). -/
def idxOfQ (w : ℚ) : List ℚ → Option ℕ
  | [] => none
  | p :: rest => if p = w then some 0 else (idxOfQ w rest).map (fun i => i + 1)

/-- `cube.extract` for a constraint fixing the longitude to `w`,
restricting the latitude by `latp` and the vertical coordinate by `zp`;
returns `none` (iris returns `None`) when nothing matches. The result is
the 2-D height-by-latitude cross-section; its second dimension coordinate
is a latitude, hence not an X axis, and the Y-axis coordinate is the
selected latitudes themselves. -/
def extractLonFixed (c : Cube3d) (w : ℚ) (latp : ℚ → Bool) (zp : ℚ → Bool) :
    Option (Cube2 ℚ) :=
  match idxOfQ w c.lon with
  | none => none
  | some j =>
    let zsel := c.z.filter zp
    let latsel := c.lat.filter latp
    if zsel.isEmpty || latsel.isEmpty then none
    else some
      { dim0 := { points := zsel, bounds := none }
        dim1 := { points := latsel, bounds := none }
        dim1IsX := false
        yFirst := latsel.headD 0
        data := filterWith c.z zp (c.data.map (fun slab =>
          filterWith c.lat latp (slab.map (fun row => row.getD j 0)))) }

/-- `cube.extract` for a constraint fixing the latitude to `w`,
restricting the longitude by `lonp` and the vertical coordinate by `zp`.
The result is the 2-D height-by-longitude cross-section; its second
dimension coordinate is a longitude (an X axis) and the Y-axis coordinate
degenerates to the scalar `w`. -/
def extractLatFixed (c : Cube3d) (w : ℚ) (lonp : ℚ → Bool) (zp : ℚ → Bool) :
    Option (Cube2 ℚ) :=
  match idxOfQ w c.lat with
  | none => none
  | some j =>
    let zsel := c.z.filter zp
    let lonsel := c.lon.filter lonp
    if zsel.isEmpty || lonsel.isEmpty then none
    else some
      { dim0 := { points := zsel, bounds := none }
        dim1 := { points := lonsel, bounds := none }
        dim1IsX := true
        yFirst := w
        data := filterWith c.z zp (c.data.map (fun slab =>
          filterWith c.lon lonp (slab.getD j []))) }

/-- Extraction with the boundary constraint `vcross_cnstr`, dispatching on
the fixed axis. -/
def boundaryExtract (c : Cube3d) : LLAxis → ℚ → (ℚ → Bool) → (ℚ → Bool) → Option (Cube2 ℚ)
  | .longitude, w, sel, zp => extractLonFixed c w sel zp
  | .latitude, w, sel, zp => extractLatFixed c w sel zp

/-- The vertical-coordinate predicate of the optional `vertical_constraint`
(no constraint keeps every level). -/
def vcPred (vc : Option (ℚ → Bool)) : ℚ → Bool := vc.getD (fun _ => true)

/-- Pointwise product of two 2-D data arrays (`wind * scalar`). -/
def mul2d (A B : List (List ℚ)) : List (List ℚ) :=
  List.zipWith (fun ra rb => List.zipWith (fun a b => a * b) ra rb) A B

/-- Pointwise product of a 2-D data array with the 2-D area array. -/
def mulArea (A : List (List ℚ)) (B : List (List ℝ)) : List (List ℝ) :=
  List.zipWith (fun ra rb => List.zipWith (fun (q : ℚ) (r : ℝ) => (q : ℝ) * r) ra rb) A B

/-- `cube.collapsed(cube.dim_coords, iris.analysis.SUM)`: the sum of every
cell. -/
noncomputable def sum2d (A : List (List ℝ)) : ℝ := (A.map (fun r => r.sum)).sum

/-- One iteration of the boundary loop of `net_horizontal_flux_to_region`
for the box entry `(key, val)`: snap the fixed value (warning when the
discrepancy exceeds 10), look up the free-axis range in the box, extract
the scalar cross-section, compute its area, extract the perpendicular wind
with the same constraint, and fully reduce `wind * scalar * area`.
Returns the number of warnings emitted alongside the total flux. -/
noncomputable def boundaryFlux (scalar_cube u v : Cube3d) (box : List (BoxKey × ℚ))
    (r_planet : ℝ) (vc : Option (ℚ → Bool)) (key : BoxKey) (val : ℚ) :
    Except FluxErr (ℕ × ℝ) :=
  let this_axis := keyAxis key
  let other_axis := llOther this_axis
  match snapValue scalar_cube this_axis val with
  | none => .error .lookupError
  | some nearest =>
    let warns : ℕ := if 10 < ratAbs (nearest - val) then 1 else 0
    match boxLookup (key0 other_axis) box, boxLookup (key1 other_axis) box with
    | some other_min, some other_max =>
      match boundaryExtract scalar_cube this_axis nearest
          (rangeSel other_min other_max) (vcPred vc) with
      | none => .error .attrError
      | some scube =>
        let vcross_area := vertical_cross_section_area scube r_planet
        match boundaryExtract (perpWind this_axis u v) this_axis nearest
            (rangeSel other_min other_max) (vcPred vc) with
        | none => .error .typeError
        | some wcube =>
          .ok (warns, sum2d (mulArea (mul2d wcube.data scube.data) vcross_area.data))
    | _, _ => .error .keyError

/-- Left-to-right effectful map over a list, aborting at the first error —
the Python `for` loop appending to `total_h_fluxes`. -/
def exceptMapList (f : α → Except ε β) : List α → Except ε (List β)
  | [] => .ok []
  | a :: rest =>
    match f a with
    | .error e => .error e
    | .ok b =>
      match exceptMapList f rest with
      | .error e => .error e
      | .ok bs => .ok (b :: bs)

/-- Embedding of `net_horizontal_flux_to_region(scalar_cube,
latlon_box_dict, u, v, r_planet, vertical_constraint)` from
`src/aeolus/misc.py`: run the boundary loop over the box entries in order,
then combine `(total_h_fluxes[0] - total_h_fluxes[1]) +
(total_h_fluxes[2] - total_h_fluxes[3])`; indexing a shorter list raises
IndexError. The result carries the total number of warnings emitted. -/
noncomputable def net_horizontal_flux_to_region (scalar_cube : Cube3d)
    (latlon_box : List (BoxKey × ℚ)) (u v : Cube3d) (r_planet : ℝ)
    (vertical_constraint : Option (ℚ → Bool)) : Except FluxErr (ℕ × ℝ) :=
  match exceptMapList
      (fun kv => boundaryFlux scalar_cube u v latlon_box r_planet vertical_constraint kv.1 kv.2)
      latlon_box with
  | .error e => .error e
  | .ok results =>
    match results with
    | f0 :: f1 :: f2 :: f3 :: _ =>
      .ok ((results.map Prod.fst).sum, (f0.2 - f1.2) + (f2.2 - f3.2))
    | _ => .error .indexError

/-- The box dictionary with its four keys in the literal insertion order
of the callers: `[longitude0, longitude1, latitude0, latitude1]`. -/
def stdBox (lon0 lon1 lat0 lat1 : ℚ) : List (BoxKey × ℚ) :=
  [(.longitude0, lon0), (.longitude1, lon1), (.latitude0, lat0), (.latitude1, lat1)]

/-- Modelled from the spec: the explicit midpoint bounds of claim C8 —
"midpoints between adjacent points, edge cells extrapolating the adjacent
spacing" (spec §4.1 step 3), written from the spec's words. -/
def specMidpointBounds : List ℚ → List (ℚ × ℚ)
  | [] => []
  | [p] => [(p, p)]
  | p :: q :: t =>
    (List.range (p :: q :: t).length).map (fun i =>
      (if i = 0 then
        getP (p :: q :: t) 0 - (getP (p :: q :: t) 1 - getP (p :: q :: t) 0) / 2
       else (getP (p :: q :: t) (i - 1) + getP (p :: q :: t) i) / 2,
       if i = (p :: q :: t).length - 1 then
        getP (p :: q :: t) i + (getP (p :: q :: t) i - getP (p :: q :: t) (i - 1)) / 2
       else (getP (p :: q :: t) i + getP (p :: q :: t) (i + 1)) / 2))

/-- Uniformly spaced coordinate points `a, a+d, …, a+(n-1)d`. -/
def gridPts (a d : ℚ) (n : ℕ) : List ℚ :=
  (List.range n).map (fun (i : ℕ) => a + d * (i : ℚ))

/-- Every wind data value is zero. -/
def allZero3 (d : List (List (List ℚ))) : Prop :=
  ∀ s ∈ d, ∀ r ∈ s, ∀ x ∈ r, x = 0

/-- Example cubes on the grid z = lat = lon = {0, 1}: a unit scalar field,
a wind blowing only through the longitude-0 boundary, and a zero wind. -/
def exScalar : Cube3d :=
  ⟨[0, 1], [0, 1], [0, 1], [[[1, 1], [1, 1]], [[1, 1], [1, 1]]]⟩

/-- Zonal wind equal to 1 at longitude 0 and 0 at longitude 1. -/
def exU : Cube3d :=
  ⟨[0, 1], [0, 1], [0, 1], [[[1, 0], [1, 0]], [[1, 0], [1, 0]]]⟩

/-- A wind component that vanishes everywhere. -/
def exV : Cube3d :=
  ⟨[0, 1], [0, 1], [0, 1], [[[0, 0], [0, 0]], [[0, 0], [0, 0]]]⟩

/-- Lookup of `longitude0` in the standard box. -/
theorem boxLookup_stdBox_lon0 (a b c d : ℚ) : boxLookup .longitude0 (stdBox a b c d) = some a := rfl

/-- Lookup of `longitude1` in the standard box. -/
theorem boxLookup_stdBox_lon1 (a b c d : ℚ) : boxLookup .longitude1 (stdBox a b c d) = some b := rfl

/-- Lookup of `latitude0` in the standard box. -/
theorem boxLookup_stdBox_lat0 (a b c d : ℚ) : boxLookup .latitude0 (stdBox a b c d) = some c := rfl

/-- Lookup of `latitude1` in the standard box. -/
theorem boxLookup_stdBox_lat1 (a b c d : ℚ) : boxLookup .latitude1 (stdBox a b c d) = some d := rfl

/-- Evaluating the net flux over a standard box once all four boundary
fluxes are known: the code combines them as
`(total_h_fluxes[0] - total_h_fluxes[1]) + (total_h_fluxes[2] - total_h_fluxes[3])`. -/
theorem net_stdBox_eval {scalar u v : Cube3d} {r : ℝ} {vc : Option (ℚ → Bool)}
    {lon0 lon1 lat0 lat1 : ℚ} {f0 f1 f2 f3 : ℕ × ℝ}
    (h0 : boundaryFlux scalar u v (stdBox lon0 lon1 lat0 lat1) r vc .longitude0 lon0 = .ok f0)
    (h1 : boundaryFlux scalar u v (stdBox lon0 lon1 lat0 lat1) r vc .longitude1 lon1 = .ok f1)
    (h2 : boundaryFlux scalar u v (stdBox lon0 lon1 lat0 lat1) r vc .latitude0 lat0 = .ok f2)
    (h3 : boundaryFlux scalar u v (stdBox lon0 lon1 lat0 lat1) r vc .latitude1 lat1 = .ok f3) :
    net_horizontal_flux_to_region scalar (stdBox lon0 lon1 lat0 lat1) u v r vc =
      .ok (f0.1 + f1.1 + f2.1 + f3.1, (f0.2 - f1.2) + (f2.2 - f3.2)) := by
  simp only [stdBox] at h0 h1 h2 h3 ⊢
  simp [net_horizontal_flux_to_region, exceptMapList, h0, h1, h2, h3]
  omega

/-- A successful net flux over a standard box determines four successful
boundary fluxes that it combines. -/
theorem net_stdBox_cases {scalar u v : Cube3d} {r : ℝ} {vc : Option (ℚ → Bool)}
    {lon0 lon1 lat0 lat1 : ℚ} {t : ℕ × ℝ}
    (h : net_horizontal_flux_to_region scalar (stdBox lon0 lon1 lat0 lat1) u v r vc = .ok t) :
    ∃ f0 f1 f2 f3,
      boundaryFlux scalar u v (stdBox lon0 lon1 lat0 lat1) r vc .longitude0 lon0 = .ok f0 ∧
      boundaryFlux scalar u v (stdBox lon0 lon1 lat0 lat1) r vc .longitude1 lon1 = .ok f1 ∧
      boundaryFlux scalar u v (stdBox lon0 lon1 lat0 lat1) r vc .latitude0 lat0 = .ok f2 ∧
      boundaryFlux scalar u v (stdBox lon0 lon1 lat0 lat1) r vc .latitude1 lat1 = .ok f3 ∧
      t.2 = (f0.2 - f1.2) + (f2.2 - f3.2) := by
  simp only [stdBox] at h ⊢
  set box : List (BoxKey × ℚ) :=
    [(BoxKey.longitude0, lon0), (BoxKey.longitude1, lon1),
     (BoxKey.latitude0, lat0), (BoxKey.latitude1, lat1)] with hbox
  cases e0 : boundaryFlux scalar u v box r vc .longitude0 lon0 with
  | error e => simp [net_horizontal_flux_to_region, exceptMapList, e0, hbox] at h
  | ok f0 =>
    cases e1 : boundaryFlux scalar u v box r vc .longitude1 lon1 with
    | error e => simp [net_horizontal_flux_to_region, exceptMapList, e0, e1, hbox] at h
    | ok f1 =>
      cases e2 : boundaryFlux scalar u v box r vc .latitude0 lat0 with
      | error e => simp [net_horizontal_flux_to_region, exceptMapList, e0, e1, e2, hbox] at h
      | ok f2 =>
        cases e3 : boundaryFlux scalar u v box r vc .latitude1 lat1 with
        | error e =>
          simp [net_horizontal_flux_to_region, exceptMapList, e0, e1, e2, e3, hbox] at h
        | ok f3 =>
          refine ⟨f0, f1, f2, f3, rfl, rfl, rfl, rfl, ?_⟩
          simp [net_horizontal_flux_to_region, exceptMapList, e0, e1, e2, e3, hbox] at h
          rw [← h]

/-- The boundary keys `longitude0` and `longitude1` drive the identical
computation when handed the same requested value: the key only selects the
fixed axis. -/
theorem boundaryFlux_lon01 (s u v : Cube3d) (box : List (BoxKey × ℚ)) (r : ℝ)
    (vc : Option (ℚ → Bool)) (w : ℚ) :
    boundaryFlux s u v box r vc .longitude0 w = boundaryFlux s u v box r vc .longitude1 w := rfl

/-- Flux through the `longitude0` boundary of the example box. -/
theorem bf_ex_lon0 : boundaryFlux exScalar exU exV (stdBox 0 1 0 1) 1 none .longitude0 0 =
    .ok (0, Real.pi / 45) := by
  norm_num [boundaryFlux, keyAxis, llOther, snapValue, coordPoints, exScalar, exU,
    nearest_coord_value, ratAbs, key0, key1, boxLookup_stdBox_lon0, boxLookup_stdBox_lon1,
    boxLookup_stdBox_lat0, boxLookup_stdBox_lat1, boundaryExtract,
    extractLonFixed, idxOfQ, rangeSel, vcPred, filterWith, List.filter, perpWind,
    vertical_cross_section_area, boundsOrGuess, guessBounds, getP, List.range_succ,
    sum2d, mulArea, mul2d, deg2rad]
  ring

/-- Flux through the `longitude1` boundary of the example box. -/
theorem bf_ex_lon1 : boundaryFlux exScalar exU exV (stdBox 0 1 0 1) 1 none .longitude1 1 =
    .ok (0, 0) := by
  norm_num [boundaryFlux, keyAxis, llOther, snapValue, coordPoints, exScalar, exU,
    nearest_coord_value, ratAbs, key0, key1, boxLookup_stdBox_lon0, boxLookup_stdBox_lon1,
    boxLookup_stdBox_lat0, boxLookup_stdBox_lat1, boundaryExtract,
    extractLonFixed, idxOfQ, rangeSel, vcPred, filterWith, List.filter, perpWind,
    vertical_cross_section_area, boundsOrGuess, guessBounds, getP, List.range_succ,
    sum2d, mulArea, mul2d, deg2rad]

/-- Flux through the `latitude0` boundary of the example box. -/
theorem bf_ex_lat0 : boundaryFlux exScalar exU exV (stdBox 0 1 0 1) 1 none .latitude0 0 =
    .ok (0, 0) := by
  norm_num [boundaryFlux, keyAxis, llOther, snapValue, coordPoints, exScalar, exV,
    nearest_coord_value, ratAbs, key0, key1, boxLookup_stdBox_lon0, boxLookup_stdBox_lon1,
    boxLookup_stdBox_lat0, boxLookup_stdBox_lat1, boundaryExtract,
    extractLatFixed, idxOfQ, rangeSel, vcPred, filterWith, List.filter, perpWind,
    vertical_cross_section_area, boundsOrGuess, guessBounds, getP, List.range_succ,
    sum2d, mulArea, mul2d, deg2rad]

/-- Flux through the `latitude1` boundary of the example box. -/
theorem bf_ex_lat1 : boundaryFlux exScalar exU exV (stdBox 0 1 0 1) 1 none .latitude1 1 =
    .ok (0, 0) := by
  norm_num [boundaryFlux, keyAxis, llOther, snapValue, coordPoints, exScalar, exV,
    nearest_coord_value, ratAbs, key0, key1, boxLookup_stdBox_lon0, boxLookup_stdBox_lon1,
    boxLookup_stdBox_lat0, boxLookup_stdBox_lat1, boundaryExtract,
    extractLatFixed, idxOfQ, rangeSel, vcPred, filterWith, List.filter, perpWind,
    vertical_cross_section_area, boundsOrGuess, guessBounds, getP, List.range_succ,
    sum2d, mulArea, mul2d, deg2rad]

/-- Net flux over the example box: `π/45`, the `longitude0` term with a
positive sign. -/
theorem net_ex : net_horizontal_flux_to_region exScalar (stdBox 0 1 0 1) exU exV 1 none =
    .ok (0, Real.pi / 45) := by
  have h := net_stdBox_eval bf_ex_lon0 bf_ex_lon1 bf_ex_lat0 bf_ex_lat1
  norm_num at h
  exact h

/-- Flux through the `longitude0` boundary of the closed-loop example box
(`longitude0 == longitude1 == 0`). -/
theorem bf_loop_lon0 : boundaryFlux exScalar exU exV (stdBox 0 0 0 1) 1 none .longitude0 0 =
    .ok (0, Real.pi / 45) := by
  norm_num [boundaryFlux, keyAxis, llOther, snapValue, coordPoints, exScalar, exU,
    nearest_coord_value, ratAbs, key0, key1, boxLookup_stdBox_lon0, boxLookup_stdBox_lon1,
    boxLookup_stdBox_lat0, boxLookup_stdBox_lat1, boundaryExtract,
    extractLonFixed, idxOfQ, rangeSel, vcPred, filterWith, List.filter, perpWind,
    vertical_cross_section_area, boundsOrGuess, guessBounds, getP, List.range_succ,
    sum2d, mulArea, mul2d, deg2rad]
  ring

/-- Flux through the `latitude0` boundary of the closed-loop example box. -/
theorem bf_loop_lat0 : boundaryFlux exScalar exU exV (stdBox 0 0 0 1) 1 none .latitude0 0 =
    .ok (0, 0) := by
  norm_num [boundaryFlux, keyAxis, llOther, snapValue, coordPoints, exScalar, exV,
    nearest_coord_value, ratAbs, key0, key1, boxLookup_stdBox_lon0, boxLookup_stdBox_lon1,
    boxLookup_stdBox_lat0, boxLookup_stdBox_lat1, boundaryExtract,
    extractLatFixed, idxOfQ, rangeSel, vcPred, filterWith, List.filter, perpWind,
    vertical_cross_section_area, boundsOrGuess, guessBounds, getP, List.range_succ,
    sum2d, mulArea, mul2d, deg2rad]

/-- Flux through the `latitude1` boundary of the closed-loop example box. -/
theorem bf_loop_lat1 : boundaryFlux exScalar exU exV (stdBox 0 0 0 1) 1 none .latitude1 1 =
    .ok (0, 0) := by
  norm_num [boundaryFlux, keyAxis, llOther, snapValue, coordPoints, exScalar, exV,
    nearest_coord_value, ratAbs, key0, key1, boxLookup_stdBox_lon0, boxLookup_stdBox_lon1,
    boxLookup_stdBox_lat0, boxLookup_stdBox_lat1, boundaryExtract,
    extractLatFixed, idxOfQ, rangeSel, vcPred, filterWith, List.filter, perpWind,
    vertical_cross_section_area, boundsOrGuess, guessBounds, getP, List.range_succ,
    sum2d, mulArea, mul2d, deg2rad]

/-- With both wind components zero, every boundary flux of the example box
evaluates to zero (here the `longitude0` boundary). -/
theorem bf_calm_lon0 : boundaryFlux exScalar exV exV (stdBox 0 1 0 1) 1 none .longitude0 0 =
    .ok (0, 0) := by
  norm_num [boundaryFlux, keyAxis, llOther, snapValue, coordPoints, exScalar, exV,
    nearest_coord_value, ratAbs, key0, key1, boxLookup_stdBox_lon0, boxLookup_stdBox_lon1,
    boxLookup_stdBox_lat0, boxLookup_stdBox_lat1, boundaryExtract,
    extractLonFixed, idxOfQ, rangeSel, vcPred, filterWith, List.filter, perpWind,
    vertical_cross_section_area, boundsOrGuess, guessBounds, getP, List.range_succ,
    sum2d, mulArea, mul2d, deg2rad]

/-- Zero-wind flux through the `longitude1` boundary of the example box. -/
theorem bf_calm_lon1 : boundaryFlux exScalar exV exV (stdBox 0 1 0 1) 1 none .longitude1 1 =
    .ok (0, 0) := by
  norm_num [boundaryFlux, keyAxis, llOther, snapValue, coordPoints, exScalar, exV,
    nearest_coord_value, ratAbs, key0, key1, boxLookup_stdBox_lon0, boxLookup_stdBox_lon1,
    boxLookup_stdBox_lat0, boxLookup_stdBox_lat1, boundaryExtract,
    extractLonFixed, idxOfQ, rangeSel, vcPred, filterWith, List.filter, perpWind,
    vertical_cross_section_area, boundsOrGuess, guessBounds, getP, List.range_succ,
    sum2d, mulArea, mul2d, deg2rad]

/-- Zero-wind net flux over the example box is exactly zero. -/
theorem net_calm : net_horizontal_flux_to_region exScalar (stdBox 0 1 0 1) exV exV 1 none =
    .ok (0, 0) := by
  have h := net_stdBox_eval bf_calm_lon0 bf_calm_lon1 bf_ex_lat0 bf_ex_lat1
  norm_num at h
  exact h

/-- Claim C1 (corrected): with the four box keys supplied in the order
`[longitude0, longitude1, latitude0, latitude1]`, the returned net flux
equals (boundary flux at `longitude0` minus boundary flux at `longitude1`)
plus (boundary flux at `latitude0` minus boundary flux at `latitude1`) —
the opposite orientation to the claim — so that net *inward* flux through
an eastward/northward-increasing box is positive. -/
theorem C1_net_flux_combination (scalar u v : Cube3d) (r : ℝ) (vc : Option (ℚ → Bool))
    (lon0 lon1 lat0 lat1 : ℚ) (f0 f1 f2 f3 : ℕ × ℝ)
    (h0 : boundaryFlux scalar u v (stdBox lon0 lon1 lat0 lat1) r vc .longitude0 lon0 = .ok f0)
    (h1 : boundaryFlux scalar u v (stdBox lon0 lon1 lat0 lat1) r vc .longitude1 lon1 = .ok f1)
    (h2 : boundaryFlux scalar u v (stdBox lon0 lon1 lat0 lat1) r vc .latitude0 lat0 = .ok f2)
    (h3 : boundaryFlux scalar u v (stdBox lon0 lon1 lat0 lat1) r vc .latitude1 lat1 = .ok f3) :
    net_horizontal_flux_to_region scalar (stdBox lon0 lon1 lat0 lat1) u v r vc =
      .ok (f0.1 + f1.1 + f2.1 + f3.1, (f0.2 - f1.2) + (f2.2 - f3.2)) :=
  net_stdBox_eval h0 h1 h2 h3

/-- Claim C1, counterexample to the claim as stated: on the example inputs
the code returns `π/45`, while the claim's formula
`(flux at longitude1 − flux at longitude0) + (flux at latitude1 − flux at
latitude0)` evaluates to `−π/45 ≠ π/45`. -/
theorem C1_claim_counterexample :
    net_horizontal_flux_to_region exScalar (stdBox 0 1 0 1) exU exV 1 none =
      .ok (0, Real.pi / 45) ∧
    boundaryFlux exScalar exU exV (stdBox 0 1 0 1) 1 none .longitude0 0 = .ok (0, Real.pi / 45) ∧
    boundaryFlux exScalar exU exV (stdBox 0 1 0 1) 1 none .longitude1 1 = .ok (0, 0) ∧
    boundaryFlux exScalar exU exV (stdBox 0 1 0 1) 1 none .latitude0 0 = .ok (0, 0) ∧
    boundaryFlux exScalar exU exV (stdBox 0 1 0 1) 1 none .latitude1 1 = .ok (0, 0) ∧
    ((0 : ℝ) - Real.pi / 45) + ((0 : ℝ) - 0) ≠ Real.pi / 45 := by
  refine ⟨net_ex, bf_ex_lon0, bf_ex_lon1, bf_ex_lat0, bf_ex_lat1, ?_⟩
  have hpi := Real.pi_pos
  intro h
  nlinarith

/-- Claim C1, witness: the corrected combination applied to the example
inputs. -/
theorem C1_net_flux_combination_witness :
    net_horizontal_flux_to_region exScalar (stdBox 0 1 0 1) exU exV 1 none =
      .ok ((0, Real.pi / 45).1 + (0, (0 : ℝ)).1 + (0, (0 : ℝ)).1 + (0, (0 : ℝ)).1,
        ((0, Real.pi / 45).2 - (0, (0 : ℝ)).2) + ((0, (0 : ℝ)).2 - (0, (0 : ℝ)).2)) :=
  C1_net_flux_combination exScalar exU exV 1 none 0 1 0 1 _ _ _ _
    bf_ex_lon0 bf_ex_lon1 bf_ex_lat0 bf_ex_lat1

/-- A `getD` lookup is a member of the list or the default. -/
theorem getD_mem_or (l : List α) (i : ℕ) (d : α) : l.getD i d ∈ l ∨ l.getD i d = d := by
  induction l generalizing i with
  | nil => right; simp
  | cons a t ih =>
    cases i with
    | zero => left; simp
    | succ n =>
      rcases ih n with h | h
      · left
        rw [List.getD_cons_succ]
        exact List.mem_cons_of_mem a h
      · right
        rw [List.getD_cons_succ]
        exact h

/-- `filterWith` only keeps entries of the original rows. -/
theorem filterWith_mem {pts : List ℚ} {p : ℚ → Bool} {rows : List α} {x : α}
    (hx : x ∈ filterWith pts p rows) : x ∈ rows := by
  simp only [filterWith, List.mem_map] at hx
  obtain ⟨pr, hpr, hx⟩ := hx
  have := List.mem_filter.mp hpr
  have h2 := List.of_mem_zip this.1
  rw [← hx]
  exact h2.2

/-- A cross-section extracted from an everywhere-zero cube is
everywhere zero. -/
theorem extract2_allZero {c : Cube3d} (hz : allZero3 c.data) {ax : LLAxis} {w : ℚ}
    {sel zp : ℚ → Bool} {c2 : Cube2 ℚ} (he : boundaryExtract c ax w sel zp = some c2) :
    ∀ row ∈ c2.data, ∀ x ∈ row, x = 0 := by
  intro row hrow x hx
  cases ax with
  | longitude =>
    simp only [boundaryExtract, extractLonFixed] at he
    split at he
    · exact absurd he (by simp)
    · split at he
      · exact absurd he (by simp)
      · rename_i j hj hemp
        injection he with he
        subst he
        simp only at hrow
        have hrow2 := filterWith_mem hrow
        simp only [List.mem_map] at hrow2
        obtain ⟨slab, hslab, hrow2⟩ := hrow2
        rw [← hrow2] at hx
        have hx2 := filterWith_mem hx
        simp only [List.mem_map] at hx2
        obtain ⟨r, hr, hx2⟩ := hx2
        rcases getD_mem_or r j 0 with hm | hm
        · rw [← hx2]; exact hz slab hslab r hr _ hm
        · rw [← hx2]; exact hm
  | latitude =>
    simp only [boundaryExtract, extractLatFixed] at he
    split at he
    · exact absurd he (by simp)
    · split at he
      · exact absurd he (by simp)
      · rename_i j hj hemp
        injection he with he
        subst he
        simp only at hrow
        have hrow2 := filterWith_mem hrow
        simp only [List.mem_map] at hrow2
        obtain ⟨slab, hslab, hrow2⟩ := hrow2
        rw [← hrow2] at hx
        have hx2 := filterWith_mem hx
        rcases getD_mem_or slab j [] with hm | hm
        · exact hz slab hslab _ hm x hx2
        · rw [hm] at hx2; exact absurd hx2 (by simp)

/-- A row of `wind * scalar * area` products with zero wind sums to zero. -/
theorem rowZero (ra rb : List ℚ) (rc : List ℝ) (h : ∀ x ∈ ra, x = 0) :
    (List.zipWith (fun (q : ℚ) (r : ℝ) => (q : ℝ) * r)
      (List.zipWith (fun a b => a * b) ra rb) rc).sum = 0 := by
  induction ra generalizing rb rc with
  | nil => simp
  | cons a ta ih =>
    cases rb with
    | nil => simp
    | cons b tb =>
      cases rc with
      | nil => simp
      | cons cc tc =>
        have ha : a = 0 := h a (by simp)
        simp [ha, ih tb tc (fun x hx => h x (by simp [hx]))]

/-- The full reduction of `wind * scalar * area` vanishes when the wind
data is all zero. -/
theorem sumZero (A B : List (List ℚ)) (C : List (List ℝ))
    (h : ∀ r ∈ A, ∀ x ∈ r, x = 0) : sum2d (mulArea (mul2d A B) C) = 0 := by
  induction A generalizing B C with
  | nil => simp [mul2d, mulArea, sum2d]
  | cons ra ta ih =>
    cases B with
    | nil => simp [mul2d, mulArea, sum2d]
    | cons rb tb =>
      cases C with
      | nil => simp [mul2d, mulArea, sum2d]
      | cons rc tc =>
        have hrow := rowZero ra rb rc (h ra (by simp))
        have hrest := ih tb tc (fun r hr => h r (by simp [hr]))
        simp only [mul2d, mulArea, sum2d, List.zipWith_cons_cons, List.map_cons,
          List.sum_cons] at hrow hrest ⊢
        rw [hrow, hrest]
        ring

/-- A successful boundary flux with zero perpendicular winds is zero. -/
theorem boundaryFlux_zero_wind {scalar u v : Cube3d} {box : List (BoxKey × ℚ)} {r : ℝ}
    {vc : Option (ℚ → Bool)} {key : BoxKey} {val : ℚ} {f : ℕ × ℝ}
    (hu : allZero3 u.data) (hv : allZero3 v.data)
    (hok : boundaryFlux scalar u v box r vc key val = .ok f) : f.2 = 0 := by
  simp only [boundaryFlux] at hok
  split at hok
  · exact absurd hok (by simp)
  · split at hok
    · split at hok
      · exact absurd hok (by simp)
      · split at hok
        · exact absurd hok (by simp)
        · rename_i scube hsc xopt wcube hwc
          injection hok with hok
          have hzw : allZero3 (perpWind (keyAxis key) u v).data := by
            cases hax : keyAxis key with
            | longitude => exact hu
            | latitude => exact hv
          have hz2 := extract2_allZero hzw hwc
          rw [← hok]
          exact sumZero wcube.data scube.data _ hz2
    · exact absurd hok (by simp)

/-- Claim C7 (confirmed): when `longitude0 == longitude1`, the two
longitude-boundary flux terms are equal and cancel exactly, so the net
flux is the combination of the two latitude-boundary terms alone. -/
theorem C7_closed_loop_cancellation (scalar u v : Cube3d) (r : ℝ) (vc : Option (ℚ → Bool))
    (w lat0 lat1 : ℚ) (f0 f2 f3 : ℕ × ℝ)
    (h0 : boundaryFlux scalar u v (stdBox w w lat0 lat1) r vc .longitude0 w = .ok f0)
    (h2 : boundaryFlux scalar u v (stdBox w w lat0 lat1) r vc .latitude0 lat0 = .ok f2)
    (h3 : boundaryFlux scalar u v (stdBox w w lat0 lat1) r vc .latitude1 lat1 = .ok f3) :
    boundaryFlux scalar u v (stdBox w w lat0 lat1) r vc .longitude0 w =
      boundaryFlux scalar u v (stdBox w w lat0 lat1) r vc .longitude1 w ∧
    net_horizontal_flux_to_region scalar (stdBox w w lat0 lat1) u v r vc =
      .ok (f0.1 + f0.1 + f2.1 + f3.1, f2.2 - f3.2) := by
  have h1 : boundaryFlux scalar u v (stdBox w w lat0 lat1) r vc .longitude1 w = .ok f0 := by
    rw [← boundaryFlux_lon01]
    exact h0
  refine ⟨by rw [h0, h1], ?_⟩
  have h := net_stdBox_eval h0 h1 h2 h3
  simpa using h

/-- Claim C7, witness: the closed-loop box `[0, 0] × [0, 1]` on the
example cubes; the longitude terms are both `π/45` and cancel, leaving the
(zero) latitude terms. -/
theorem C7_closed_loop_cancellation_witness :
    boundaryFlux exScalar exU exV (stdBox 0 0 0 1) 1 none .longitude0 0 =
      boundaryFlux exScalar exU exV (stdBox 0 0 0 1) 1 none .longitude1 0 ∧
    net_horizontal_flux_to_region exScalar (stdBox 0 0 0 1) exU exV 1 none =
      .ok ((0, Real.pi / 45).1 + (0, Real.pi / 45).1 + (0, (0 : ℝ)).1 + (0, (0 : ℝ)).1,
        (0, (0 : ℝ)).2 - (0, (0 : ℝ)).2) :=
  C7_closed_loop_cancellation exScalar exU exV 1 none 0 0 1 _ _ _
    bf_loop_lon0 bf_loop_lat0 bf_loop_lat1

/-- Claim C9 (confirmed): if both supplied wind components vanish
everywhere, a successful `net_horizontal_flux_to_region` call over a
region box returns exactly 0. -/
theorem C9_zero_wind (scalar u v : Cube3d) (r : ℝ) (vc : Option (ℚ → Bool))
    (lon0 lon1 lat0 lat1 : ℚ) (t : ℕ × ℝ)
    (hu : allZero3 u.data) (hv : allZero3 v.data)
    (h : net_horizontal_flux_to_region scalar (stdBox lon0 lon1 lat0 lat1) u v r vc = .ok t) :
    t.2 = 0 := by
  obtain ⟨f0, f1, f2, f3, e0, e1, e2, e3, ht⟩ := net_stdBox_cases h
  have z0 := boundaryFlux_zero_wind hu hv e0
  have z1 := boundaryFlux_zero_wind hu hv e1
  have z2 := boundaryFlux_zero_wind hu hv e2
  have z3 := boundaryFlux_zero_wind hu hv e3
  rw [ht, z0, z1, z2, z3]
  ring

/-- Claim C9, witness: zero winds on the example grid give a net flux of
exactly 0. -/
theorem C9_zero_wind_witness :
    allZero3 exV.data ∧
    net_horizontal_flux_to_region exScalar (stdBox 0 1 0 1) exV exV 1 none = .ok (0, 0) ∧
    ((0 : ℕ), (0 : ℝ)).2 = 0 := by
  have hz : allZero3 exV.data := by
    intro s hs rr hr x hx
    simp only [exV] at hs
    simp at hs
    subst hs
    simp at hr
    subst hr
    simpa using hx
  exact ⟨hz, net_calm, C9_zero_wind exScalar exV exV 1 none 0 1 0 1 (0, 0) hz hz net_calm⟩

/-- The free-axis (second) coordinate of a longitude-fixed cross-section
is the filtered latitude coordinate. -/
theorem extractLonFixed_dim1 {c : Cube3d} {w : ℚ} {sel zp : ℚ → Bool} {c2 : Cube2 ℚ}
    (he : extractLonFixed c w sel zp = some c2) : c2.dim1.points = c.lat.filter sel := by
  simp only [extractLonFixed] at he
  split at he
  · exact absurd he (by simp)
  · split at he
    · exact absurd he (by simp)
    · injection he with he
      rw [← he]

/-- The free-axis (second) coordinate of a latitude-fixed cross-section is
the filtered longitude coordinate. -/
theorem extractLatFixed_dim1 {c : Cube3d} {w : ℚ} {sel zp : ℚ → Bool} {c2 : Cube2 ℚ}
    (he : extractLatFixed c w sel zp = some c2) : c2.dim1.points = c.lon.filter sel := by
  simp only [extractLatFixed] at he
  split at he
  · exact absurd he (by simp)
  · split at he
    · exact absurd he (by simp)
    · injection he with he
      rw [← he]

/-- The boundary membership test agrees with the spec's description:
wraparound (`x ≥ other_min` or `x ≤ other_max`) when
`other_max < other_min`, the plain range otherwise. -/
theorem rangeSel_iff (other_min other_max x : ℚ) :
    rangeSel other_min other_max x = true ↔
      (if other_max < other_min then other_min ≤ x ∨ x ≤ other_max
       else other_min ≤ x ∧ x ≤ other_max) := by
  unfold rangeSel
  rcases le_or_lt other_min other_max with h | h
  · rw [if_pos h, if_neg (not_lt.mpr h)]
    simp
  · rw [if_neg (not_le.mpr h), if_pos h]
    simp only [decide_eq_true_eq]
    constructor
    · intro hx
      rcases hx with hx | hx
      · exact Or.inr hx
      · exact Or.inl hx
    · intro hx
      rcases hx with hx | hx
      · exact Or.inr hx
      · exact Or.inl hx

/-- Claim C5 (confirmed): for every boundary, the extraction keeps exactly
the free-axis points x with x ≥ other_min or x ≤ other_max when
`other_max < other_min` (wrapped complement region), and exactly those
with other_min ≤ x ≤ other_max otherwise. -/
theorem C5_wraparound_selection (c : Cube3d) (other_min other_max w : ℚ) (zp : ℚ → Bool)
    (c2 : Cube2 ℚ) (x : ℚ) :
    (boundaryExtract c .longitude w (rangeSel other_min other_max) zp = some c2 →
      (x ∈ c2.dim1.points ↔ x ∈ c.lat ∧
        (if other_max < other_min then other_min ≤ x ∨ x ≤ other_max
         else other_min ≤ x ∧ x ≤ other_max))) ∧
    (boundaryExtract c .latitude w (rangeSel other_min other_max) zp = some c2 →
      (x ∈ c2.dim1.points ↔ x ∈ c.lon ∧
        (if other_max < other_min then other_min ≤ x ∨ x ≤ other_max
         else other_min ≤ x ∧ x ≤ other_max))) := by
  constructor
  · intro he
    rw [extractLonFixed_dim1 he, List.mem_filter, rangeSel_iff]
  · intro he
    rw [extractLatFixed_dim1 he, List.mem_filter, rangeSel_iff]

/-- Claim C5, witness: a wrapped box `[1, 0]` on the longitude axis of the
example grid keeps both points 0 and 1 when extracting a latitude-fixed
boundary; the point `x = 1` satisfies the wrapped test via `x ≥ 1`. -/
theorem C5_wraparound_selection_witness :
    (boundaryExtract exScalar .latitude 0 (rangeSel 1 0) (vcPred none) =
      some ⟨⟨[0, 1], none⟩, ⟨[0, 1], none⟩, true, 0, [[1, 1], [1, 1]]⟩) ∧
    ((1 : ℚ) ∈ (⟨⟨[0, 1], none⟩, ⟨[0, 1], none⟩, true, 0, [[1, 1], [1, 1]]⟩ : Cube2 ℚ).dim1.points ↔
      (1 : ℚ) ∈ exScalar.lon ∧
        (if (0 : ℚ) < 1 then (1 : ℚ) ≤ 1 ∨ (1 : ℚ) ≤ 0
         else (1 : ℚ) ≤ 1 ∧ (1 : ℚ) ≤ 0)) := by
  have he : boundaryExtract exScalar .latitude 0 (rangeSel 1 0) (vcPred none) =
      some ⟨⟨[0, 1], none⟩, ⟨[0, 1], none⟩, true, 0, [[1, 1], [1, 1]]⟩ := by
    norm_num [boundaryExtract, extractLatFixed, exScalar, idxOfQ, rangeSel, vcPred,
      filterWith, List.filter]
  exact ⟨he, (C5_wraparound_selection exScalar 1 0 0 (vcPred none) _ 1).2 he⟩

/-- The program's rational absolute value is the absolute value. -/
theorem ratAbs_eq_abs (q : ℚ) : ratAbs q = |q| := by
  unfold ratAbs
  rcases lt_or_le q 0 with h | h
  · rw [if_pos h, abs_of_neg h]
  · rw [if_neg (not_lt.mpr h), abs_of_nonneg h]

/-- The fold inside the nearest-value search returns a member of the axis
whose distance to the requested value is minimal. -/
theorem nearest_fold_spec (val : ℚ) : ∀ (rest : List ℚ) (p : ℚ),
    (rest.foldl (fun best q => if ratAbs (q - val) < ratAbs (best - val) then q else best) p
        ∈ p :: rest) ∧
    ∀ q ∈ p :: rest,
      ratAbs (rest.foldl
        (fun best q => if ratAbs (q - val) < ratAbs (best - val) then q else best) p - val) ≤
      ratAbs (q - val) := by
  intro rest
  induction rest with
  | nil =>
    intro p
    constructor
    · simp
    · intro q hq
      simp at hq
      subst hq
      simp
  | cons r t ih =>
    intro p
    set s := if ratAbs (r - val) < ratAbs (p - val) then r else p with hs
    have hsel : (s = r ∨ s = p) ∧ ratAbs (s - val) ≤ ratAbs (p - val) ∧
        ratAbs (s - val) ≤ ratAbs (r - val) := by
      rw [hs]
      split
      · next h => exact ⟨Or.inl rfl, le_of_lt h, le_refl _⟩
      · next h => exact ⟨Or.inr rfl, le_refl _, not_lt.mp h⟩
    have hfold : List.foldl
        (fun best q => if ratAbs (q - val) < ratAbs (best - val) then q else best) p (r :: t) =
        List.foldl (fun best q => if ratAbs (q - val) < ratAbs (best - val) then q else best) s t := by
      simp [List.foldl, hs]
    constructor
    · rw [hfold]
      rcases (ih s).1 with hm
      rcases List.mem_cons.mp hm with hm | hm
      · rcases hsel.1 with h | h
        · rw [hm, h]; simp
        · rw [hm, h]; simp
      · simp [hm]
    · intro q hq
      rw [hfold]
      have hres := (ih s).2
      rcases List.mem_cons.mp hq with hq | hq
      · exact le_trans (hres s (by simp)) (by rw [hq]; exact hsel.2.1)
      · rcases List.mem_cons.mp hq with hq | hq
        · exact le_trans (hres s (by simp)) (by rw [hq]; exact hsel.2.2)
        · exact hres q (by simp [hq])

/-- The snapped value is a grid point at minimal distance from the
request. -/
theorem nearest_mem_min {pts : List ℚ} {val nr : ℚ}
    (h : nearest_coord_value pts val = some nr) :
    nr ∈ pts ∧ ∀ q ∈ pts, ratAbs (nr - val) ≤ ratAbs (q - val) := by
  cases pts with
  | nil => exact absurd h (by simp [nearest_coord_value])
  | cons p rest =>
    simp only [nearest_coord_value] at h
    injection h with h
    rw [← h]
    exact nearest_fold_spec val rest p

/-- Snapping a value already on the grid returns it unchanged. -/
theorem nearest_self {pts : List ℚ} {w : ℚ} (hw : w ∈ pts) :
    nearest_coord_value pts w = some w := by
  cases hmatch : nearest_coord_value pts w with
  | none =>
    cases pts with
    | nil => exact absurd hw (by simp)
    | cons p rest => exact absurd hmatch (by simp [nearest_coord_value])
  | some nr =>
    obtain ⟨hmem, hmin⟩ := nearest_mem_min hmatch
    have h0 := hmin w hw
    rw [sub_self] at h0
    have h1 : ratAbs (0 : ℚ) = 0 := by norm_num [ratAbs]
    rw [h1] at h0
    have hnn : 0 ≤ ratAbs (nr - w) := by
      rw [ratAbs_eq_abs]; exact abs_nonneg _
    have hz : ratAbs (nr - w) = 0 := le_antisymm h0 hnn
    rw [ratAbs_eq_abs] at hz
    have hzz : nr - w = 0 := abs_eq_zero.mp hz
    have heq : nr = w := by linarith
    rw [heq]

/-- Inversion of a successful boundary flux: each stage succeeded, and the
result is the warning count plus the fully reduced product. -/
theorem boundaryFlux_ok_inv {scalar u v : Cube3d} {box : List (BoxKey × ℚ)} {r : ℝ}
    {vc : Option (ℚ → Bool)} {key : BoxKey} {val : ℚ} {f : ℕ × ℝ}
    (hok : boundaryFlux scalar u v box r vc key val = .ok f) :
    ∃ nr other_min other_max scube wcube,
      snapValue scalar (keyAxis key) val = some nr ∧
      boxLookup (key0 (llOther (keyAxis key))) box = some other_min ∧
      boxLookup (key1 (llOther (keyAxis key))) box = some other_max ∧
      boundaryExtract scalar (keyAxis key) nr (rangeSel other_min other_max) (vcPred vc) =
        some scube ∧
      boundaryExtract (perpWind (keyAxis key) u v) (keyAxis key) nr
        (rangeSel other_min other_max) (vcPred vc) = some wcube ∧
      f = (if 10 < ratAbs (nr - val) then 1 else 0,
           sum2d (mulArea (mul2d wcube.data scube.data)
             (vertical_cross_section_area scube r).data)) := by
  simp only [boundaryFlux] at hok
  split at hok
  · exact absurd hok (by simp)
  · split at hok
    · split at hok
      · exact absurd hok (by simp)
      · split at hok
        · exact absurd hok (by simp)
        · rename_i nr hsnap x3 x2 omin omax hm0 hm1 x1 scube hsc xw wcube hwc
          injection hok with hok
          exact ⟨nr, omin, omax, scube, wcube, hsnap, hm0, hm1, hsc, hwc, hok.symm⟩
    · exact absurd hok (by simp)

/-- Reassembly of a boundary flux from its successful stages. -/
theorem boundaryFlux_ok_build {scalar u v : Cube3d} {box : List (BoxKey × ℚ)} {r : ℝ}
    {vc : Option (ℚ → Bool)} {key : BoxKey} {val nr other_min other_max : ℚ}
    {scube wcube : Cube2 ℚ}
    (hsnap : snapValue scalar (keyAxis key) val = some nr)
    (hm0 : boxLookup (key0 (llOther (keyAxis key))) box = some other_min)
    (hm1 : boxLookup (key1 (llOther (keyAxis key))) box = some other_max)
    (hsc : boundaryExtract scalar (keyAxis key) nr (rangeSel other_min other_max) (vcPred vc) =
      some scube)
    (hwc : boundaryExtract (perpWind (keyAxis key) u v) (keyAxis key) nr
      (rangeSel other_min other_max) (vcPred vc) = some wcube) :
    boundaryFlux scalar u v box r vc key val =
      .ok (if 10 < ratAbs (nr - val) then 1 else 0,
           sum2d (mulArea (mul2d wcube.data scube.data)
             (vertical_cross_section_area scube r).data)) := by
  simp only [boundaryFlux, hsnap, hm0, hm1, hsc, hwc]

/-- Claim C6 (confirmed): the requested fixed value is snapped to the
nearest available grid value on its axis; a successful boundary emits
exactly one warning if and only if the discrepancy exceeds 10, and in
either case the computation proceeds using the snapped value (requesting
the snapped value itself yields the same flux with no warning). -/
theorem C6_snap_and_warn (scalar u v : Cube3d) (box : List (BoxKey × ℚ)) (r : ℝ)
    (vc : Option (ℚ → Bool)) (key : BoxKey) (val nr : ℚ)
    (hsnap : snapValue scalar (keyAxis key) val = some nr) :
    (nr ∈ coordPoints scalar (keyAxis key) ∧
      ∀ p ∈ coordPoints scalar (keyAxis key), |nr - val| ≤ |p - val|) ∧
    (∀ wn F, boundaryFlux scalar u v box r vc key val = .ok (wn, F) →
      (wn = if 10 < |nr - val| then 1 else 0) ∧
      boundaryFlux scalar u v box r vc key nr = .ok (0, F)) := by
  have hsnap' : nearest_coord_value (coordPoints scalar (keyAxis key)) val = some nr := hsnap
  have hmm := nearest_mem_min hsnap'
  refine ⟨⟨hmm.1, fun p hp => ?_⟩, ?_⟩
  · have h := hmm.2 p hp
    rwa [ratAbs_eq_abs, ratAbs_eq_abs] at h
  · intro wn F hok
    obtain ⟨nr2, omin, omax, scube, wcube, hsnap2, hm0, hm1, hsc, hwc, hf⟩ :=
      boundaryFlux_ok_inv hok
    rw [hsnap] at hsnap2
    injection hsnap2 with hnr
    subst hnr
    rw [Prod.mk.injEq] at hf
    constructor
    · rw [hf.1, ratAbs_eq_abs]
    · have hself : snapValue scalar (keyAxis key) nr = some nr :=
        nearest_self hmm.1
      have hb := boundaryFlux_ok_build (r := r) hself hm0 hm1 hsc hwc
      rw [hb, hf.2]
      norm_num [ratAbs]

/-- Claim C6, witness: requesting longitude 35 on the axis `{0, 1}` of the
example cube snaps to 1 (discrepancy 34 > 10, one warning). -/
theorem C6_snap_and_warn_witness :
    snapValue exScalar (keyAxis .longitude0) 35 = some 1 ∧
    ((1 : ℚ) ∈ coordPoints exScalar (keyAxis .longitude0) ∧
      ∀ p ∈ coordPoints exScalar (keyAxis .longitude0), |(1 : ℚ) - 35| ≤ |p - 35|) ∧
    (∀ wn F, boundaryFlux exScalar exU exV (stdBox 0 1 0 1) 1 none .longitude0 35 = .ok (wn, F) →
      (wn = if 10 < |(1 : ℚ) - 35| then 1 else 0) ∧
      boundaryFlux exScalar exU exV (stdBox 0 1 0 1) 1 none .longitude0 1 = .ok (0, F)) := by
  have h : snapValue exScalar (keyAxis .longitude0) 35 = some 1 := by
    norm_num [snapValue, keyAxis, coordPoints, exScalar, nearest_coord_value, ratAbs]
  exact ⟨h, C6_snap_and_warn exScalar exU exV (stdBox 0 1 0 1) 1 none .longitude0 35 1 h⟩

/-- An error at a boundary whose predecessors all succeed aborts the whole
boundary loop with that error. -/
theorem exceptMapList_error_propagates {α β ε : Type} {f : α → Except ε β} :
    ∀ (pre : List α) (a : α) (post : List α) (e : ε),
      (∀ x ∈ pre, ∃ b, f x = .ok b) → f a = .error e →
      exceptMapList f (pre ++ a :: post) = .error e := by
  intro pre
  induction pre with
  | nil =>
    intro a post e hpre ha
    simp [exceptMapList, ha]
  | cons p t ih =>
    intro a post e hpre ha
    obtain ⟨b, hb⟩ := hpre p (by simp)
    simp [exceptMapList, hb, ih a post e (fun x hx => hpre x (by simp [hx])) ha]

/-- A boundary error propagates to the net flux result. -/
theorem net_error_of_boundary {scalar u v : Cube3d} {r : ℝ} {vc : Option (ℚ → Bool)}
    {box pre post : List (BoxKey × ℚ)} {kv : BoxKey × ℚ} {e : FluxErr}
    (hbox : box = pre ++ kv :: post)
    (hpre : ∀ x ∈ pre, ∃ b, boundaryFlux scalar u v box r vc x.1 x.2 = .ok b)
    (hkv : boundaryFlux scalar u v box r vc kv.1 kv.2 = .error e) :
    net_horizontal_flux_to_region scalar box u v r vc = .error e := by
  have h := exceptMapList_error_propagates pre kv post e hpre hkv
  rw [← hbox] at h
  simp [net_horizontal_flux_to_region, h]

/-- With an empty selection the scalar extraction is `None`, and the
boundary fails with the AttributeError-equivalent when the area
computation dereferences it. -/
theorem boundaryFlux_attrError {scalar u v : Cube3d} {box : List (BoxKey × ℚ)} {r : ℝ}
    {vc : Option (ℚ → Bool)} {key : BoxKey} {val nr other_min other_max : ℚ}
    (hsnap : snapValue scalar (keyAxis key) val = some nr)
    (hm0 : boxLookup (key0 (llOther (keyAxis key))) box = some other_min)
    (hm1 : boxLookup (key1 (llOther (keyAxis key))) box = some other_max)
    (hsc : boundaryExtract scalar (keyAxis key) nr (rangeSel other_min other_max) (vcPred vc) =
      none) :
    boundaryFlux scalar u v box r vc key val = .error .attrError := by
  simp only [boundaryFlux, hsnap, hm0, hm1, hsc]

/-- The first boundary of the gap box `[0,1] × [30,40]` on the example
grid: the latitude range selects no points, so the scalar extraction is
`None` and the area step fails with the AttributeError-equivalent. -/
theorem bf_gap_lon0 : boundaryFlux exScalar exU exV (stdBox 0 1 30 40) 1 none .longitude0 0 =
    .error .attrError := by
  norm_num [boundaryFlux, keyAxis, llOther, snapValue, coordPoints, exScalar,
    nearest_coord_value, ratAbs, key0, key1, boxLookup_stdBox_lon0, boxLookup_stdBox_lon1,
    boxLookup_stdBox_lat0, boxLookup_stdBox_lat1, boundaryExtract,
    extractLonFixed, idxOfQ, rangeSel, vcPred, filterWith, List.filter]

/-- Claim C4 (corrected): when a boundary's selection is empty the call
fails — but at the area-computation step for that boundary, with the
AttributeError-equivalent of using the `None` extraction, not at the
reduction step; the error propagates to the caller, no zero is
substituted, and no partial result is produced. -/
theorem C4_empty_selection_failure :
    (∀ (scalar u v : Cube3d) (box : List (BoxKey × ℚ)) (r : ℝ) (vc : Option (ℚ → Bool))
        (key : BoxKey) (val nr other_min other_max : ℚ),
      snapValue scalar (keyAxis key) val = some nr →
      boxLookup (key0 (llOther (keyAxis key))) box = some other_min →
      boxLookup (key1 (llOther (keyAxis key))) box = some other_max →
      boundaryExtract scalar (keyAxis key) nr (rangeSel other_min other_max) (vcPred vc) =
        none →
      boundaryFlux scalar u v box r vc key val = .error .attrError) ∧
    (∀ (scalar u v : Cube3d) (r : ℝ) (vc : Option (ℚ → Bool))
        (box pre post : List (BoxKey × ℚ)) (kv : BoxKey × ℚ) (e : FluxErr),
      box = pre ++ kv :: post →
      (∀ x ∈ pre, ∃ b, boundaryFlux scalar u v box r vc x.1 x.2 = .ok b) →
      boundaryFlux scalar u v box r vc kv.1 kv.2 = .error e →
      net_horizontal_flux_to_region scalar box u v r vc = .error e) :=
  ⟨fun _ _ _ _ _ _ _ _ _ _ _ hsnap hm0 hm1 hsc =>
      boundaryFlux_attrError hsnap hm0 hm1 hsc,
   fun _ _ _ _ _ _ _ _ _ _ hbox hpre hkv => net_error_of_boundary hbox hpre hkv⟩

/-- Claim C4, counterexample to the claim as stated: on the gap box the
call fails with the AttributeError-equivalent raised at the
area-computation step, which is not the reduction-step error
(IndexError/ShapeError-equivalent at `total_h_fluxes[i]`). -/
theorem C4_claim_counterexample :
    net_horizontal_flux_to_region exScalar (stdBox 0 1 30 40) exU exV 1 none =
      .error .attrError ∧
    (Except.error FluxErr.attrError : Except FluxErr (ℕ × ℝ)) ≠ .error .indexError := by
  constructor
  · exact @net_error_of_boundary exScalar exU exV 1 none (stdBox 0 1 30 40) []
      ((stdBox 0 1 30 40).tail) (.longitude0, 0) .attrError rfl
      (by intro x hx; exact absurd hx (by simp)) bf_gap_lon0
  · intro h
    injection h with h
    exact absurd h (by simp)

/-- Claim C4, witness: the amended failure behaviour at the concrete gap
box. -/
theorem C4_empty_selection_failure_witness :
    boundaryExtract exScalar (keyAxis .longitude0) 0 (rangeSel 30 40) (vcPred none) = none ∧
    boundaryFlux exScalar exU exV (stdBox 0 1 30 40) 1 none .longitude0 0 =
      .error .attrError ∧
    net_horizontal_flux_to_region exScalar (stdBox 0 1 30 40) exU exV 1 none =
      .error .attrError := by
  have hsnap : snapValue exScalar (keyAxis .longitude0) 0 = some 0 := by
    norm_num [snapValue, keyAxis, coordPoints, exScalar, nearest_coord_value, ratAbs]
  have hsc : boundaryExtract exScalar (keyAxis .longitude0) 0 (rangeSel 30 40) (vcPred none) =
      none := by
    norm_num [boundaryExtract, keyAxis, extractLonFixed, exScalar, idxOfQ, rangeSel, vcPred,
      filterWith, List.filter]
  refine ⟨hsc, ?_, ?_⟩
  · exact C4_empty_selection_failure.1 exScalar exU exV (stdBox 0 1 30 40) 1 none
      .longitude0 0 0 30 40 hsnap (boxLookup_stdBox_lat0 0 1 30 40)
      (boxLookup_stdBox_lat1 0 1 30 40) hsc
  · exact C4_empty_selection_failure.2 exScalar exU exV 1 none (stdBox 0 1 30 40) []
      (stdBox 0 1 30 40).tail (.longitude0, 0) .attrError rfl
      (by intro x hx; exact absurd hx (by simp)) bf_gap_lon0

/-- A uniform grid has the expected length. -/
theorem gridPts_length (a d : ℚ) (n : ℕ) : (gridPts a d n).length = n := by
  simp only [gridPts, List.length_map, List.length_range]

/-- Indexing into a uniform grid. -/
theorem gridPts_getP (a d : ℚ) {n i : ℕ} (h : i < n) : getP (gridPts a d n) i = a + d * i := by
  rw [getP, gridPts, List.getD_eq_getElem?_getD, List.getElem?_map, List.getElem?_range h]
  rfl

/-- On a uniformly spaced coordinate, every inferred cell width equals the
grid spacing. -/
theorem guessBounds_width {a d : ℚ} {n : ℕ} (hn : 2 ≤ n) :
    ∀ b ∈ guessBounds (gridPts a d n), b.2 - b.1 = d := by
  intro b hb
  rw [guessBounds, gridPts_length] at hb
  rw [if_neg (by omega)] at hb
  simp only [gridPts_length, List.mem_map, List.mem_range] at hb
  obtain ⟨i, hi, hb⟩ := hb
  rw [← hb]
  have hdl : (if i = 0 then getP (gridPts a d n) 1 - getP (gridPts a d n) 0
      else getP (gridPts a d n) i - getP (gridPts a d n) (i - 1)) = d := by
    split
    · rw [gridPts_getP a d (by omega), gridPts_getP a d (by omega)]
      push_cast
      ring
    · next hne =>
      rw [gridPts_getP a d hi, gridPts_getP a d (by omega)]
      have h1 : (1 : ℕ) ≤ i := by omega
      push_cast [Nat.cast_sub h1]
      ring
  have hdr : (if i = n - 1 then getP (gridPts a d n) (n - 1) - getP (gridPts a d n) (n - 2)
      else getP (gridPts a d n) (i + 1) - getP (gridPts a d n) i) = d := by
    split
    · rw [gridPts_getP a d (by omega), gridPts_getP a d (by omega)]
      push_cast [Nat.cast_sub (by omega : 1 ≤ n), Nat.cast_sub (by omega : 2 ≤ n)]
      ring
    · next hne =>
      rw [gridPts_getP a d (by omega), gridPts_getP a d hi]
      push_cast
      ring
  rw [hdl, hdr]
  ring

/-- The 2-D latitude-by-longitude example cube for the area claims:
uniform 1-degree spacings, first latitude 0, second coordinate tagged as
the X (longitude) axis. -/
def cC2 : Cube2 ℚ := ⟨⟨[0, 1], none⟩, ⟨[0, 1], none⟩, true, 0, [[0, 0], [0, 0]]⟩

/-- Claim C2 (corrected): on a uniform latitude/longitude grid with
spacings dλ, dφ and radius R > 0, every cell area produced by
`vertical_cross_section_area` equals `R·(π/180)·dλ·dφ·cos(φ₀)` where φ₀ is
the slice's first latitude point — one factor of `(π/180)·R`, not two, and
the cosine of the first row's latitude for every cell. -/
theorem C2_area_formula (c : Cube2 ℚ) (R : ℝ) (lat0 dlat lon0 dlon : ℚ) (n m : ℕ)
    (h0p : c.dim0.points = gridPts lat0 dlat n) (h0b : c.dim0.bounds = none)
    (h1p : c.dim1.points = gridPts lon0 dlon m) (h1b : c.dim1.bounds = none)
    (hx : c.dim1IsX = true) (hy : c.yFirst = lat0)
    (hn : 2 ≤ n) (hm : 2 ≤ m) (hR : 0 < R) :
    ∀ row ∈ (vertical_cross_section_area c R).data, ∀ s ∈ row,
      s = R * (Real.pi / 180) * (dlon : ℝ) * (dlat : ℝ) * Real.cos (deg2rad lat0) := by
  intro row hrow s hs
  simp only [vertical_cross_section_area, h0p, h0b, h1p, h1b, hx, hy, boundsOrGuess,
    Option.getD_none, if_true] at hrow
  obtain ⟨zb, hzb, hrowe⟩ := List.mem_map.mp hrow
  rw [← hrowe] at hs
  obtain ⟨xb, hxb, hse⟩ := List.mem_map.mp hs
  have hzw := guessBounds_width hn zb hzb
  have hxw := guessBounds_width hm xb hxb
  have hz2 : ((zb.2 : ℝ) - (zb.1 : ℝ)) = (dlat : ℝ) := by
    rw [show ((zb.2 : ℝ) - (zb.1 : ℝ)) = ((zb.2 - zb.1 : ℚ) : ℝ) by push_cast; ring, hzw]
  have hx2 : ((xb.2 : ℝ) - (xb.1 : ℝ)) = (dlon : ℝ) := by
    rw [show ((xb.2 : ℝ) - (xb.1 : ℝ)) = ((xb.2 - xb.1 : ℚ) : ℝ) by push_cast; ring, hxw]
  rw [← hse, hz2, hx2]
  ring

/-- Claim C2, counterexample to the claim as stated: on the unit grid with
R = 1 the cell at latitude 0 has area `π/180`, while the claim's formula
`R²·(π/180)²·dλ·dφ·cos(φ)` gives `(π/180)² ≠ π/180`. -/
theorem C2_claim_counterexample :
    ((vertical_cross_section_area cC2 1).data.getD 0 []).getD 0 0 = Real.pi / 180 ∧
    Real.pi / 180 ≠ (1 : ℝ) ^ 2 * (Real.pi / 180) ^ 2 * 1 * 1 * Real.cos (deg2rad 0) := by
  constructor
  · norm_num [cC2, vertical_cross_section_area, boundsOrGuess, guessBounds, getP,
      List.range_succ, deg2rad]
  · norm_num [deg2rad]
    have h1 := Real.pi_gt_three
    have h2 := Real.pi_lt_d2
    intro h
    nlinarith

/-- Claim C2, witness: the corrected area formula on the concrete unit
grid. -/
theorem C2_area_formula_witness :
    (2 ≤ 2) ∧ ((0 : ℝ) < 1) ∧
    (∀ row ∈ (vertical_cross_section_area cC2 1).data, ∀ s ∈ row,
      s = 1 * (Real.pi / 180) * ((1 : ℚ) : ℝ) * ((1 : ℚ) : ℝ) * Real.cos (deg2rad 0)) := by
  refine ⟨le_refl 2, one_pos, ?_⟩
  have hg : gridPts 0 1 2 = [0, 1] := by
    norm_num [gridPts, List.range_succ]
  exact C2_area_formula cC2 1 0 1 0 1 2 2 (by rw [hg]; rfl) rfl (by rw [hg]; rfl) rfl
    rfl rfl (by norm_num) (by norm_num) one_pos

/-- A single-point first coordinate with a longitude second coordinate. -/
def cC3a : Cube2 ℚ := ⟨⟨[3], none⟩, ⟨[0, 1], none⟩, false, 0, [[5, 5]]⟩

/-- A single-point second coordinate. -/
def cC3b : Cube2 ℚ := ⟨⟨[0, 1], none⟩, ⟨[4], none⟩, true, 7, [[5], [5]]⟩

/-- Claim C3 (confirmed): when one dimension coordinate has exactly one
point and no pre-supplied bounds, the call succeeds, the inferred bounds
degenerate to the zero-width interval, and every cell area along that
coordinate is zero. -/
theorem C3_single_point_zero_area :
    (∀ (c : Cube2 ℚ) (r : ℝ) (p : ℚ), c.dim0.points = [p] → c.dim0.bounds = none →
      guessBounds c.dim0.points = [(p, p)] ∧
      (vertical_cross_section_area c r).data =
        [(boundsOrGuess c.dim1.points c.dim1.bounds).map (fun _ => (0 : ℝ))]) ∧
    (∀ (c : Cube2 ℚ) (r : ℝ) (q : ℚ), c.dim1.points = [q] → c.dim1.bounds = none →
      guessBounds c.dim1.points = [(q, q)] ∧
      (vertical_cross_section_area c r).data =
        (boundsOrGuess c.dim0.points c.dim0.bounds).map (fun _ => [(0 : ℝ)])) := by
  constructor
  · intro c r p h0p h0b
    have hg : guessBounds [p] = [(p, p)] := by norm_num [guessBounds]
    refine ⟨by rw [h0p]; exact hg, ?_⟩
    simp only [vertical_cross_section_area, h0p, h0b, boundsOrGuess, Option.getD_none, hg]
    simp [sub_self]
  · intro c r q h1p h1b
    have hg : guessBounds [q] = [(q, q)] := by norm_num [guessBounds]
    refine ⟨by rw [h1p]; exact hg, ?_⟩
    simp only [vertical_cross_section_area, h1p, h1b, boundsOrGuess, Option.getD_none, hg]
    simp [sub_self]

/-- Claim C3, witness: concrete single-point coordinates produce
zero-width bounds and zero areas, preserved in the output. -/
theorem C3_single_point_zero_area_witness :
    (guessBounds cC3a.dim0.points = [(3, 3)] ∧
      (vertical_cross_section_area cC3a 1).data =
        [(boundsOrGuess cC3a.dim1.points cC3a.dim1.bounds).map (fun _ => (0 : ℝ))]) ∧
    (guessBounds cC3b.dim1.points = [(4, 4)] ∧
      (vertical_cross_section_area cC3b 1).data =
        (boundsOrGuess cC3b.dim0.points cC3b.dim0.bounds).map (fun _ => [(0 : ℝ)])) :=
  ⟨C3_single_point_zero_area.1 cC3a 1 3 rfl rfl,
   C3_single_point_zero_area.2 cC3b 1 4 rfl rfl⟩

/-- The spec's explicit midpoint bounds coincide with the inferred bounds
on any coordinate: midpoints between neighbours rearrange to the
half-spacing form used by the inference. -/
theorem specMidpointBounds_eq_guessBounds (pts : List ℚ) :
    specMidpointBounds pts = guessBounds pts := by
  match pts with
  | [] => rfl
  | [p] => rfl
  | p :: q :: t =>
    rw [specMidpointBounds, guessBounds]
    rw [if_neg (by simp)]
    apply List.map_congr_left
    intro i hi
    rw [Prod.mk.injEq]
    constructor
    · split
      · next h => subst h; rfl
      · ring
    · split
      · next h =>
          subst h
          have h2 : (p :: q :: t).length - 1 - 1 = (p :: q :: t).length - 2 := by omega
          rw [h2]
      · ring

/-- Claim C8 (confirmed): on evenly spaced coordinates,
`vertical_cross_section_area` returns identical results whether the
midpoint bounds are supplied explicitly or inferred from bound-less
coordinates. -/
theorem C8_bounds_invariance (lat0 dlat lon0 dlon : ℚ) (n m : ℕ) (hn : 2 ≤ n) (hm : 2 ≤ m)
    (flag : Bool) (y : ℚ) (dat : List (List ℚ)) (r : ℝ) :
    vertical_cross_section_area
      (⟨⟨gridPts lat0 dlat n, some (specMidpointBounds (gridPts lat0 dlat n))⟩,
        ⟨gridPts lon0 dlon m, some (specMidpointBounds (gridPts lon0 dlon m))⟩,
        flag, y, dat⟩ : Cube2 ℚ) r =
    vertical_cross_section_area
      (⟨⟨gridPts lat0 dlat n, none⟩, ⟨gridPts lon0 dlon m, none⟩,
        flag, y, dat⟩ : Cube2 ℚ) r := by
  simp only [vertical_cross_section_area, boundsOrGuess, Option.getD_some, Option.getD_none,
    specMidpointBounds_eq_guessBounds]

/-- Claim C8, witness: the invariance at a concrete 2-by-2 unit grid. -/
theorem C8_bounds_invariance_witness :
    (2 ≤ 2) ∧
    vertical_cross_section_area
      (⟨⟨gridPts 0 1 2, some (specMidpointBounds (gridPts 0 1 2))⟩,
        ⟨gridPts 0 1 2, some (specMidpointBounds (gridPts 0 1 2))⟩,
        true, 0, [[1, 1], [1, 1]]⟩ : Cube2 ℚ) 1 =
    vertical_cross_section_area
      (⟨⟨gridPts 0 1 2, none⟩, ⟨gridPts 0 1 2, none⟩,
        true, 0, [[1, 1], [1, 1]]⟩ : Cube2 ℚ) 1 :=
  ⟨le_refl 2, C8_bounds_invariance 0 1 0 1 2 2 (le_refl 2) (le_refl 2) true 0 [[1, 1], [1, 1]] 1⟩

/-- Claim C10 (corrected): for strictly ordered anchors
`vmin < midpoint < vmax`, `MidpointNormalize.__call__` maps `vmin` to 0,
`midpoint` to 0.5 and `vmax` to 1, is linear on each segment, clamps
outside `[vmin, vmax]`, and is monotonically non-decreasing. The claim's
non-strict `vmin ≤ midpoint ≤ vmax` fails at `vmin = midpoint`. -/
theorem C10_midpoint_normalize (vmin mid vmax : ℚ) (h1 : vmin < mid) (h2 : mid < vmax) :
    MidpointNormalize vmin mid vmax vmin = 0 ∧
    MidpointNormalize vmin mid vmax mid = 1 / 2 ∧
    MidpointNormalize vmin mid vmax vmax = 1 ∧
    (∀ v, vmin ≤ v → v ≤ mid →
      MidpointNormalize vmin mid vmax v = (v - vmin) / (mid - vmin) * (1 / 2)) ∧
    (∀ v, mid ≤ v → v ≤ vmax →
      MidpointNormalize vmin mid vmax v = 1 / 2 + (v - mid) / (vmax - mid) * (1 / 2)) ∧
    (∀ v, v ≤ vmin → MidpointNormalize vmin mid vmax v = 0) ∧
    (∀ v, vmax ≤ v → MidpointNormalize vmin mid vmax v = 1) ∧
    (∀ a b, a ≤ b → MidpointNormalize vmin mid vmax a ≤ MidpointNormalize vmin mid vmax b) := by
  have hd1 : (0 : ℚ) < mid - vmin := by linarith
  have hd2 : (0 : ℚ) < vmax - mid := by linarith
  have hlow : ∀ v, v ≤ vmin → MidpointNormalize vmin mid vmax v = 0 := by
    intro v hv
    unfold MidpointNormalize np_interp3
    rcases lt_or_eq_of_le hv with hv | hv
    · rw [if_pos hv]
    · subst hv
      rw [if_neg (lt_irrefl v), if_pos h1]
      ring
  have hseg1 : ∀ v, vmin ≤ v → v ≤ mid →
      MidpointNormalize vmin mid vmax v = (v - vmin) / (mid - vmin) * (1 / 2) := by
    intro v hv1 hv2
    unfold MidpointNormalize np_interp3
    rw [if_neg (not_lt.mpr hv1)]
    rcases lt_or_eq_of_le hv2 with hv2 | hv2
    · rw [if_pos hv2]
      ring
    · subst hv2
      rw [if_neg (lt_irrefl v), if_pos h2, div_self (ne_of_gt hd1)]
      ring
  have hseg2 : ∀ v, mid ≤ v → v ≤ vmax →
      MidpointNormalize vmin mid vmax v = 1 / 2 + (v - mid) / (vmax - mid) * (1 / 2) := by
    intro v hv1 hv2
    unfold MidpointNormalize np_interp3
    rw [if_neg (not_lt.mpr (by linarith : vmin ≤ v)), if_neg (not_lt.mpr hv1)]
    rcases lt_or_eq_of_le hv2 with hv2 | hv2
    · rw [if_pos hv2]
      ring
    · subst hv2
      rw [if_neg (lt_irrefl v), div_self (ne_of_gt hd2)]
      ring
  have hhigh : ∀ v, vmax ≤ v → MidpointNormalize vmin mid vmax v = 1 := by
    intro v hv
    unfold MidpointNormalize np_interp3
    rw [if_neg (not_lt.mpr (by linarith : vmin ≤ v)),
      if_neg (not_lt.mpr (by linarith : mid ≤ v)), if_neg (not_lt.mpr hv)]
  have hub1 : ∀ v, v ≤ mid → MidpointNormalize vmin mid vmax v ≤ 1 / 2 := by
    intro v hv
    rcases le_or_lt v vmin with hcase | hcase
    · rw [hlow v hcase]
      norm_num
    · rw [hseg1 v (le_of_lt hcase) hv]
      have hle : (v - vmin) / (mid - vmin) ≤ 1 := by
        rw [div_le_one hd1]
        linarith
      nlinarith [div_nonneg (by linarith : (0 : ℚ) ≤ v - vmin) (le_of_lt hd1)]
  have hlb2 : ∀ v, mid ≤ v → 1 / 2 ≤ MidpointNormalize vmin mid vmax v := by
    intro v hv
    rcases le_or_lt vmax v with hcase | hcase
    · rw [hhigh v hcase]
      norm_num
    · rw [hseg2 v hv (le_of_lt hcase)]
      nlinarith [div_nonneg (by linarith : (0 : ℚ) ≤ v - mid) (le_of_lt hd2)]
  have hnn : ∀ v, 0 ≤ MidpointNormalize vmin mid vmax v := by
    intro v
    rcases le_or_lt v vmin with hcase | hcase
    · rw [hlow v hcase]
    · rcases le_or_lt v mid with hcase2 | hcase2
      · rw [hseg1 v (le_of_lt hcase) hcase2]
        nlinarith [div_nonneg (by linarith : (0 : ℚ) ≤ v - vmin) (le_of_lt hd1)]
      · have := hlb2 v (le_of_lt hcase2)
        linarith
  have hub : ∀ v, MidpointNormalize vmin mid vmax v ≤ 1 := by
    intro v
    rcases le_or_lt v mid with hcase | hcase
    · have := hub1 v hcase
      linarith
    · rcases le_or_lt v vmax with hcase2 | hcase2
      · rw [hseg2 v (le_of_lt hcase) hcase2]
        have hle : (v - mid) / (vmax - mid) ≤ 1 := by
          rw [div_le_one hd2]
          linarith
        nlinarith
      · rw [hhigh v (le_of_lt hcase2)]
  refine ⟨hlow vmin (le_refl vmin), ?_, hhigh vmax (le_refl vmax), hseg1, hseg2, hlow, hhigh, ?_⟩
  · rw [hseg1 mid (le_of_lt h1) (le_refl mid), div_self (ne_of_gt hd1)]
    ring
  · intro a b hab
    rcases le_or_lt b vmin with hb | hb
    · rw [hlow b hb, hlow a (le_trans hab hb)]
    · rcases le_or_lt b mid with hb2 | hb2
      · rw [hseg1 b (le_of_lt hb) hb2]
        rcases le_or_lt a vmin with ha | ha
        · rw [hlow a ha]
          nlinarith [div_nonneg (by linarith : (0 : ℚ) ≤ b - vmin) (le_of_lt hd1)]
        · rw [hseg1 a (le_of_lt ha) (le_trans hab hb2)]
          have hdiv : (a - vmin) / (mid - vmin) ≤ (b - vmin) / (mid - vmin) := by
            apply div_le_div_of_nonneg_right ?_ (le_of_lt hd1)
            linarith
          nlinarith
      · rcases le_or_lt a mid with ha | ha
        · exact le_trans (hub1 a ha) (hlb2 b (le_of_lt hb2))
        · rcases le_or_lt b vmax with hb3 | hb3
          · rw [hseg2 a (le_of_lt ha) (le_trans hab hb3), hseg2 b (le_of_lt hb2) hb3]
            have hdiv : (a - mid) / (vmax - mid) ≤ (b - mid) / (vmax - mid) := by
              apply div_le_div_of_nonneg_right ?_ (le_of_lt hd2)
              linarith
            nlinarith
          · rw [hhigh b (le_of_lt hb3)]
            exact hub a

/-- Claim C10, counterexample to the claim as stated: with the non-strict
anchors `vmin = midpoint = 0 ≤ vmax = 1` allowed by the claim, the call
maps `vmin` to 1/2, not 0. -/
theorem C10_claim_counterexample :
    ((0 : ℚ) ≤ 0 ∧ (0 : ℚ) ≤ 1) ∧
    MidpointNormalize 0 0 1 0 = 1 / 2 ∧ (1 / 2 : ℚ) ≠ 0 := by
  norm_num [MidpointNormalize, np_interp3]

/-- Claim C10, witness: the amended statement at the anchors 0 < 1 < 2. -/
theorem C10_midpoint_normalize_witness :
    (0 : ℚ) < 1 ∧ (1 : ℚ) < 2 ∧
    (MidpointNormalize 0 1 2 0 = 0 ∧
     MidpointNormalize 0 1 2 1 = 1 / 2 ∧
     MidpointNormalize 0 1 2 2 = 1 ∧
     (∀ v, (0 : ℚ) ≤ v → v ≤ 1 → MidpointNormalize 0 1 2 v = (v - 0) / (1 - 0) * (1 / 2)) ∧
     (∀ v, (1 : ℚ) ≤ v → v ≤ 2 → MidpointNormalize 0 1 2 v = 1 / 2 + (v - 1) / (2 - 1) * (1 / 2)) ∧
     (∀ v, v ≤ (0 : ℚ) → MidpointNormalize 0 1 2 v = 0) ∧
     (∀ v, (2 : ℚ) ≤ v → MidpointNormalize 0 1 2 v = 1) ∧
     (∀ a b, a ≤ b → MidpointNormalize 0 1 2 a ≤ MidpointNormalize 0 1 2 b)) :=
  ⟨by norm_num, by norm_num,
   C10_midpoint_normalize 0 1 2 (by norm_num) (by norm_num)⟩
